import Mathlib

/-!
# Verification of the signal-generation and backtesting core

Shallow embedding of the repository's trading core:

* `src/trading/backtesting.py` — `Backtester._validate_inputs`,
  `_generate_positions`, `_calculate_returns`, `_generate_trade_history`, `run`;
* `src/trading/signals.py` — `SignalType`, `SignalConfig.validate`,
  `SignalGenerator._precompute_indicators`, `generate_signals`;
* `src/analysis/indicators.py` — `TechnicalIndicators._calculate_rsi`
  (the same formula as `SignalGenerator._precompute_indicators`);
* `src/analysis/metrics.py` — `FinancialMetrics.calculate_all`.

Modelling conventions:

* pandas float series become Lean lists.  A value that can be NaN is an
  `Option ℚ` (with `none` playing NaN), and scalar computations that can
  produce NaN or ±∞ live in `FVal` below, which mirrors the IEEE-754
  double special values the numpy operations of the source produce
  (there is no signed zero; none of the modelled code paths distinguish
  −0.0 from +0.0).
* a pandas `DatetimeIndex` becomes a list of integer day stamps, so that
  `(date - entry_date).days` becomes integer subtraction;
  `isinstance(index, pd.DatetimeIndex)` becomes a boolean field of the input.
* python dictionaries of configuration values become association lists,
  `dict.get(k, d)` becomes `lookup` with a default.
-/

/-- IEEE-754-style extended value: a rational, NaN, or ±∞.  Mirrors the
numpy float special values produced by the source's divisions. -/
inductive FVal where
  | nan
  | inf
  | ninf
  | val (q : ℚ)
deriving DecidableEq

namespace FVal

/-- Addition with IEEE special-value rules (`NaN` absorbs, `∞ + (−∞) = NaN`). -/
def add : FVal → FVal → FVal
  | nan, _ => nan
  | _, nan => nan
  | inf, ninf => nan
  | ninf, inf => nan
  | inf, _ => inf
  | _, inf => inf
  | ninf, _ => ninf
  | _, ninf => ninf
  | val a, val b => val (a + b)

/-- Negation. -/
def neg : FVal → FVal
  | nan => nan
  | inf => ninf
  | ninf => inf
  | val a => val (-a)

/-- Subtraction. -/
def sub (a b : FVal) : FVal := add a (neg b)

/-- Multiplication (`∞ × 0 = NaN`). -/
def mul : FVal → FVal → FVal
  | nan, _ => nan
  | _, nan => nan
  | inf, inf => inf
  | inf, ninf => ninf
  | ninf, inf => ninf
  | ninf, ninf => inf
  | inf, val b => if 0 < b then inf else if b < 0 then ninf else nan
  | val a, inf => if 0 < a then inf else if a < 0 then ninf else nan
  | ninf, val b => if 0 < b then ninf else if b < 0 then inf else nan
  | val a, ninf => if 0 < a then ninf else if a < 0 then inf else nan
  | val a, val b => val (a * b)

/-- Division (`x/0` gives a signed infinity, `0/0 = NaN`, `x/∞ = 0`);
the zero divisor is treated as numpy's `+0.0`, the only zero the modelled
code paths produce. -/
def div : FVal → FVal → FVal
  | nan, _ => nan
  | _, nan => nan
  | inf, inf => nan
  | inf, ninf => nan
  | ninf, inf => nan
  | ninf, ninf => nan
  | inf, val b => if b < 0 then ninf else inf
  | ninf, val b => if b < 0 then inf else ninf
  | val _, inf => val 0
  | val _, ninf => val 0
  | val a, val b =>
    if b = 0 then (if 0 < a then inf else if a < 0 then ninf else nan)
    else val (a / b)

/-- Absolute value. -/
def fabs : FVal → FVal
  | nan => nan
  | inf => inf
  | ninf => inf
  | val a => val |a|

/-- `v > c` for a rational threshold; false on NaN (pandas comparison rule). -/
def gtQ : FVal → ℚ → Bool
  | nan, _ => false
  | inf, _ => true
  | ninf, _ => false
  | val a, c => decide (c < a)

/-- `v < c` for a rational threshold; false on NaN. -/
def ltQ : FVal → ℚ → Bool
  | nan, _ => false
  | inf, _ => false
  | ninf, _ => true
  | val a, c => decide (a < c)

end FVal

/-! ## Option-valued series primitives (NaN-aware pandas operations) -/

/-- pandas comparison `a > b`: false when either side is NaN. -/
def oGT : Option ℚ → Option ℚ → Bool
  | some a, some b => decide (b < a)
  | _, _ => false

/-- pandas comparison `a ≥ b`: false when either side is NaN. -/
def oGE : Option ℚ → Option ℚ → Bool
  | some a, some b => decide (b ≤ a)
  | _, _ => false

/-- pandas comparison `a < b`: false when either side is NaN. -/
def oLT : Option ℚ → Option ℚ → Bool
  | some a, some b => decide (a < b)
  | _, _ => false

/-- pandas comparison `a ≤ b`: false when either side is NaN. -/
def oLE : Option ℚ → Option ℚ → Bool
  | some a, some b => decide (a ≤ b)
  | _, _ => false

/-- NaN-propagating multiplication of series elements. -/
def omul : Option ℚ → Option ℚ → Option ℚ
  | some a, some b => some (a * b)
  | _, _ => none

/-- NaN-propagating subtraction of series elements. -/
def osub : Option ℚ → Option ℚ → Option ℚ
  | some a, some b => some (a - b)
  | _, _ => none

/-- `Series.diff()`: element `t` is `x[t] - x[t-1]`, NaN at `t = 0`;
the diff of an empty series is empty. -/
def diffList : List ℚ → List (Option ℚ)
  | [] => []
  | x :: xs => none :: List.zipWith (fun prev cur => some (cur - prev)) (x :: xs) xs

/-- `Series.pct_change()`: element `t` is `x[t]/x[t-1] - 1`, NaN at `t = 0`. -/
def pctChange : List ℚ → List (Option ℚ)
  | [] => []
  | x :: xs => none :: List.zipWith (fun prev cur => some (cur / prev - 1)) (x :: xs) xs

/-- `Series.shift(1)`: NaN at `t = 0`, then the previous element; length preserved. -/
def shiftOne : List ℚ → List (Option ℚ)
  | [] => []
  | x :: xs => none :: ((x :: xs).take xs.length).map some

/-! ## Backtester (`src/trading/backtesting.py`) -/

/-- The two aligned input series of `Backtester`, with their pandas indexes.
`pricesIndexIsDatetime` models `isinstance(prices.index, pd.DatetimeIndex)`. -/
structure BTInput where
  pricesIndex : List Int
  pricesIndexIsDatetime : Bool
  signalsIndex : List Int
  prices : List ℚ
  signals : List String
deriving DecidableEq

/-- `Backtester._validate_inputs`: equal lengths, a datetime index on the
prices, and the `BUY`/`SELL`/`NEUTRAL` vocabulary.  Note the source never
examines `signals.index`. -/
def validateInputs (inp : BTInput) : Except String Unit :=
  if inp.prices.length ≠ inp.signals.length then
    Except.error "Prices and signals must have same length"
  else if !inp.pricesIndexIsDatetime then
    Except.error "Prices must have datetime index"
  else if !(inp.signals.all fun s => s == "BUY" || s == "SELL" || s == "NEUTRAL") then
    Except.error "Signals must be BUY/SELL/NEUTRAL"
  else Except.ok ()

/-- The loop body of `Backtester._generate_positions`, threading the
`position` variable through the signal list and recording the position
at every timestamp. -/
def generatePositionsAux (position : Int) : List String → List Int
  | [] => []
  | signal :: rest =>
    if signal = "BUY" ∧ position ≤ 0 then
      1 :: generatePositionsAux 1 rest
    else if signal = "SELL" ∧ 0 ≤ position then
      (-1) :: generatePositionsAux (-1) rest
    else
      position :: generatePositionsAux position rest

/-- `Backtester._generate_positions`: the position series, starting flat. -/
def generatePositions (signals : List String) : List Int :=
  generatePositionsAux 0 signals

/-- `Backtester._calculate_returns`: `positions.shift(1) * prices.pct_change()`
minus `positions.diff().abs() * commission`, then `dropna()`. -/
def calculateReturns (commission : ℚ) (prices : List ℚ) (positions : List Int) :
    List ℚ :=
  let posQ : List ℚ := positions.map fun p => ((p : Int) : ℚ)
  let priceReturns := pctChange prices
  let strat := List.zipWith omul (shiftOne posQ) priceReturns
  let commissions := (diffList posQ).map (Option.map fun d => |d| * commission)
  let net := List.zipWith osub strat commissions
  net.filterMap id

/-- One row of the trade ledger produced by `_generate_trade_history`. -/
structure TradeRec where
  entry_date : Int
  exit_date : Int
  position : Int
  entry_price : ℚ
  exit_price : ℚ
  ret : ℚ
  duration : Int
deriving DecidableEq

/-- The loop of `Backtester._generate_trade_history`, folding over rows
`(date, price, position-at-date)` with the previous position and the open
entry (price, date) as state.  The `none` entry in the closing branch is
unreachable from the initial state (a non-flat previous position is always
preceded by an entry) and is mapped to no record. -/
def tradeAux (position : Int) (entry : Option (ℚ × Int)) :
    List (Int × ℚ × Int) → List TradeRec
  | [] => []
  | (date, price, pos) :: rest =>
    if pos ≠ position then
      let closed : List TradeRec :=
        if position ≠ 0 then
          match entry with
          | some (ep, ed) =>
            [{ entry_date := ed, exit_date := date, position := position,
               entry_price := ep, exit_price := price,
               ret := (price - ep) / ep * position, duration := date - ed }]
          | none => []
        else []
      let entry' := if pos ≠ 0 then some (price, date) else entry
      closed ++ tradeAux pos entry' rest
    else
      tradeAux position entry rest

/-- `Backtester._generate_trade_history` over the rows of the position
series (dates are the prices' index, as in the source). -/
def generateTradeHistory (dates : List Int) (prices : List ℚ)
    (positions : List Int) : List TradeRec :=
  tradeAux 0 none (dates.zip (prices.zip positions))

/-! ## Quick sanity checks of the backtesting embedding -/

example : generatePositions ["NEUTRAL", "BUY", "NEUTRAL", "SELL"] = [0, 1, 1, -1] := by
  decide

example :
    calculateReturns 0 [100, 110, 121, 1089/10] [0, 1, 1, -1] =
      [0, 1/10, -(1/10)] := by
  norm_num [calculateReturns, pctChange, shiftOne, diffList, omul, osub,
    List.filterMap_cons, id]

example :
    generateTradeHistory [0, 1, 2, 3] [100, 110, 121, 1089/10] [0, 1, 1, -1] =
      [{ entry_date := 1, exit_date := 3, position := 1, entry_price := 110,
         exit_price := 1089/10, ret := -(1/100), duration := 2 }] := by
  norm_num [generateTradeHistory, tradeAux]

/-! ## Indicator primitives (`_precompute_indicators` / `indicators.py`) -/

/-- `Series.rolling(w).mean()` (default `min_periods = w`): NaN until `w`
values are available, then the mean of the trailing window of size `w`. -/
def rollingMean (w : ℕ) (xs : List ℚ) : List (Option ℚ) :=
  (List.range xs.length).map fun t =>
    if t + 1 < w then none
    else some ((((xs.take (t + 1)).drop (t + 1 - w)).sum) / (w : ℚ))

/-- The square of `Series.rolling(w).std()` (sample variance, `ddof = 1`):
NaN until `w` values are available or when `w = 1` (a `0/0` in pandas). -/
def rollingVar (w : ℕ) (xs : List ℚ) : List (Option ℚ) :=
  (List.range xs.length).map fun t =>
    if t + 1 < w ∨ w = 1 then none
    else
      let window := (xs.take (t + 1)).drop (t + 1 - w)
      let m := window.sum / (w : ℚ)
      some ((window.map fun x => (x - m) ^ 2).sum / ((w : ℚ) - 1))

/-- The recursion of `Series.ewm(span, adjust=False).mean()` after the seed:
`y_t = α x_t + (1 − α) y_{t−1}`. -/
def ewmaAux (a : ℚ) (prev : ℚ) : List ℚ → List ℚ
  | [] => []
  | x :: xs =>
    let y := a * x + (1 - a) * prev
    y :: ewmaAux a y xs

/-- `Series.ewm(span=s, adjust=False).mean()` with `α = 2/(s+1)`, seeded
with the first element. -/
def ewma (span : ℕ) : List ℚ → List ℚ
  | [] => []
  | x :: xs => x :: ewmaAux (2 / ((span : ℚ) + 1)) x xs

/-- NaN-aware division used for `rs = gain / loss` in the RSI: `0/0` is NaN
and `g/0` for `g ≠ 0` a signed infinity (numpy float division). -/
def odivF : Option ℚ → Option ℚ → FVal
  | some a, some b =>
    if b = 0 then (if 0 < a then FVal.inf else if a < 0 then FVal.ninf else FVal.nan)
    else FVal.val (a / b)
  | _, _ => FVal.nan

/-- The RSI column of `_precompute_indicators` (and, identically,
`TechnicalIndicators._calculate_rsi`): rolling means of the clamped deltas,
`rs = gain/loss`, `RSI = 100 − 100/(1 + rs)`. -/
def rsiOfClose (period : ℕ) (close : List ℚ) : List FVal :=
  let delta := diffList close
  let gain := delta.map fun d =>
    match d with
    | some x => if 0 < x then x else 0
    | none => 0
  let loss := delta.map fun d =>
    match d with
    | some x => if x < 0 then -x else 0
    | none => 0
  let rs := List.zipWith odivF (rollingMean period gain) (rollingMean period loss)
  rs.map fun v =>
    FVal.sub (FVal.val 100) (FVal.div (FVal.val 100) (FVal.add (FVal.val 1) v))

/-! ## Signal configuration (`SignalConfig` of `src/trading/signals.py`) -/

/-- `SignalConfig`: the `enabled` and `parameters` dictionaries as
association lists (the source's `isinstance(..., dict)` checks hold by
construction in this model). -/
structure SignalConfig where
  enabled : List (String × Bool)
  parameters : List (String × List (String × ℚ))
deriving DecidableEq

/-- `params.get(key, default)`. -/
def pget (ps : List (String × ℚ)) (k : String) (d : ℚ) : ℚ :=
  (ps.lookup k).getD d

/-- The body of `SignalConfig.validate` for one parameter group, raising on
the first out-of-range value; group names other than the four known ones are
accepted unexamined (the source has no branch for them). -/
def validateGroup (name : String) (ps : List (String × ℚ)) : Except String Unit :=
  if name = "rsi" then
    if ¬(10 ≤ pget ps "period" 14 ∧ pget ps "period" 14 ≤ 30) then
      Except.error "RSI period must be between 10 and 30"
    else if ¬(60 ≤ pget ps "overbought" 70 ∧ pget ps "overbought" 70 ≤ 80) then
      Except.error "RSI overbought must be between 60 and 80"
    else if ¬(20 ≤ pget ps "oversold" 30 ∧ pget ps "oversold" 30 ≤ 40) then
      Except.error "RSI oversold must be between 20 and 40"
    else Except.ok ()
  else if name = "macd" then
    if ¬(8 ≤ pget ps "fast_period" 12 ∧ pget ps "fast_period" 12 ≤ 26) then
      Except.error "MACD fast period must be between 8 and 26"
    else if ¬(12 ≤ pget ps "slow_period" 26 ∧ pget ps "slow_period" 26 ≤ 50) then
      Except.error "MACD slow period must be between 12 and 50"
    else if ¬(5 ≤ pget ps "signal_period" 9 ∧ pget ps "signal_period" 9 ≤ 20) then
      Except.error "MACD signal period must be between 5 and 20"
    else Except.ok ()
  else if name = "moving_average" then
    if ¬(5 ≤ pget ps "short_window" 20 ∧ pget ps "short_window" 20 ≤ 50) then
      Except.error "MA short window must be between 5 and 50"
    else if ¬(20 ≤ pget ps "long_window" 50 ∧ pget ps "long_window" 50 ≤ 200) then
      Except.error "MA long window must be between 20 and 200"
    else Except.ok ()
  else if name = "bollinger" then
    if ¬(10 ≤ pget ps "window" 20 ∧ pget ps "window" 20 ≤ 50) then
      Except.error "Bollinger window must be between 10 and 50"
    else if ¬(3/2 ≤ pget ps "std_dev" 2 ∧ pget ps "std_dev" 2 ≤ 3) then
      Except.error "Bollinger std_dev must be between 1.5 and 3.0"
    else Except.ok ()
  else Except.ok ()

/-- The loop of `SignalConfig.validate` over `self.parameters.items()`
(note: over the parameter groups, not over the enabled set). -/
def validateParams : List (String × List (String × ℚ)) → Except String Unit
  | [] => Except.ok ()
  | (name, ps) :: rest =>
    match validateGroup name ps with
    | Except.error e => Except.error e
    | Except.ok () => validateParams rest

/-- `SignalConfig.validate`, run by `__post_init__` at construction time. -/
def SignalConfig.validate (cfg : SignalConfig) : Except String Unit :=
  validateParams cfg.parameters

/-! ## Signal generation (`SignalGenerator.generate_signals`) -/

/-- `SignalType` of `src/trading/signals.py`. -/
inductive SignalType where
  | NEUTRAL
  | BUY
  | SELL
  | STRONG_BUY
  | STRONG_SELL
deriving DecidableEq

/-- `SignalType.simple_name`: the downgrading projection to the backtester's
vocabulary. -/
def SignalType.simpleName : SignalType → String
  | SignalType.NEUTRAL => "NEUTRAL"
  | SignalType.BUY => "BUY"
  | SignalType.SELL => "SELL"
  | SignalType.STRONG_BUY => "BUY"
  | SignalType.STRONG_SELL => "SELL"

/-- `self.config.enabled.get(name, False)`. -/
def cfgEnabled (cfg : SignalConfig) (name : String) : Bool :=
  (cfg.enabled.lookup name).getD false

/-- `self.config.parameters[name]`.  For a name that is absent the source
raises a `KeyError` before any signal is produced; the default `[]` is only
reached for configurations on which the source does not return. -/
def cfgParams (cfg : SignalConfig) (name : String) : List (String × ℚ) :=
  (cfg.parameters.lookup name).getD []

/-- `params[key]` for an integer-valued window/span parameter (the source
stores python ints here; `KeyError` on a missing key as in `cfgParams`). -/
def pnat (ps : List (String × ℚ)) (k : String) : ℕ :=
  (((ps.lookup k).getD 0).num).toNat

/-- Element `t` of an Option-valued column. -/
def oget (xs : List (Option ℚ)) (t : ℕ) : Option ℚ :=
  match xs.get? t with
  | some v => v
  | none => none

/-- Element `t` of `column.shift(1)` for an Option-valued column. -/
def ogetPrev (xs : List (Option ℚ)) (t : ℕ) : Option ℚ :=
  if t = 0 then none else oget xs (t - 1)

/-- Element `t` of `column.shift(1)` for a total (ℚ-valued) column. -/
def qgetPrev (xs : List ℚ) (t : ℕ) : Option ℚ :=
  if t = 0 then none else xs.get? (t - 1)

/-- Edge-triggered upward crossover of two Option-valued columns at `t`:
`(a > b) & (a.shift(1) <= b.shift(1))`, NaN comparing false. -/
def crossUpO (a b : List (Option ℚ)) (t : ℕ) : Bool :=
  oGT (oget a t) (oget b t) && oLE (ogetPrev a t) (ogetPrev b t)

/-- Edge-triggered downward crossover of two Option-valued columns at `t`. -/
def crossDownO (a b : List (Option ℚ)) (t : ℕ) : Bool :=
  oLT (oget a t) (oget b t) && oGE (ogetPrev a t) (ogetPrev b t)

/-- Edge-triggered upward crossover of two total columns at `t` (the MACD
and its signal line are everywhere defined under `adjust=False`). -/
def crossUpQ (a b : List ℚ) (t : ℕ) : Bool :=
  oGT (a.get? t) (b.get? t) && oLE (qgetPrev a t) (qgetPrev b t)

/-- Edge-triggered downward crossover of two total columns at `t`. -/
def crossDownQ (a b : List ℚ) (t : ℕ) : Bool :=
  oLT (a.get? t) (b.get? t) && oGE (qgetPrev a t) (qgetPrev b t)

/-- `Close < BB_Lower` at `t`, i.e. `c < m − k·σ` where `σ = √v`.  Encoded
over the variance `v`: for the validated multipliers `k > 0` and `v ≥ 0`,
`c < m − k√v ↔ (m − c > 0 ∧ (m − c)² > k²·v)`; NaN comparisons are false. -/
def belowLowerBand (close : List ℚ) (mean var : List (Option ℚ)) (k : ℚ)
    (t : ℕ) : Bool :=
  match close.get? t, oget mean t, oget var t with
  | some c, some m, some v => decide (0 < m - c ∧ k ^ 2 * v < (m - c) ^ 2)
  | _, _, _ => false

/-- `Close > BB_Upper` at `t`, encoded as in `belowLowerBand`. -/
def aboveUpperBand (close : List ℚ) (mean var : List (Option ℚ)) (k : ℚ)
    (t : ℕ) : Bool :=
  match close.get? t, oget mean t, oget var t with
  | some c, some m, some v => decide (0 < c - m ∧ k ^ 2 * v < (c - m) ^ 2)
  | _, _, _ => false

/-- `RSI > threshold` at `t` (false on NaN; true at `+∞`). -/
def rsiAbove (rsi : List FVal) (threshold : ℚ) (t : ℕ) : Bool :=
  match rsi.get? t with
  | some v => v.gtQ threshold
  | none => false

/-- `RSI < threshold` at `t`. -/
def rsiBelow (rsi : List FVal) (threshold : ℚ) (t : ℕ) : Bool :=
  match rsi.get? t with
  | some v => v.ltQ threshold
  | none => false

/-- The eight per-timestamp boolean conditions of `generate_signals`; each is
the scalar `False` when its indicator is disabled. -/
structure Conds where
  maUp : Bool
  maDn : Bool
  rsiOb : Bool
  rsiOs : Bool
  bbLo : Bool
  bbHi : Bool
  mcUp : Bool
  mcDn : Bool
deriving DecidableEq

/-- The condition vector of `generate_signals` at timestamp `t`, computed
from the `Close` column exactly as `_precompute_indicators` builds the
indicator columns (the other OHLC columns are never read). -/
def condsAt (cfg : SignalConfig) (close : List ℚ) (t : ℕ) : Conds :=
  let maOn := cfgEnabled cfg "moving_average"
  let maPs := cfgParams cfg "moving_average"
  let maShort := rollingMean (pnat maPs "short_window") close
  let maLong := rollingMean (pnat maPs "long_window") close
  let rsiOn := cfgEnabled cfg "rsi"
  let rsiPs := cfgParams cfg "rsi"
  let rsi := rsiOfClose (pnat rsiPs "period") close
  let bbOn := cfgEnabled cfg "bollinger"
  let bbPs := cfgParams cfg "bollinger"
  let bbMean := rollingMean (pnat bbPs "window") close
  let bbVar := rollingVar (pnat bbPs "window") close
  let bbK := pget bbPs "std_dev" 0
  let mcOn := cfgEnabled cfg "macd"
  let mcPs := cfgParams cfg "macd"
  let macdLine := List.zipWith (fun a b => a - b)
    (ewma (pnat mcPs "fast_period") close) (ewma (pnat mcPs "slow_period") close)
  let signalLine := ewma (pnat mcPs "signal_period") macdLine
  { maUp := maOn && crossUpO maShort maLong t
    maDn := maOn && crossDownO maShort maLong t
    rsiOb := rsiOn && rsiAbove rsi (pget rsiPs "overbought" 0) t
    rsiOs := rsiOn && rsiBelow rsi (pget rsiPs "oversold" 0) t
    bbLo := bbOn && belowLowerBand close bbMean bbVar bbK t
    bbHi := bbOn && aboveUpperBand close bbMean bbVar bbK t
    mcUp := mcOn && crossUpQ macdLine signalLine t
    mcDn := mcOn && crossDownQ macdLine signalLine t }

/-- The four `signals.loc[...] = ...` assignments of `generate_signals`,
applied in source order to the `NEUTRAL`-initialised value at one timestamp;
a later assignment overwrites an earlier one. -/
def codeCombine (c : Conds) : SignalType :=
  let strongBuy := c.maUp && c.rsiOs && c.bbLo && c.mcUp
  let strongSell := c.maDn && c.rsiOb && c.bbHi && c.mcDn
  let buy := c.maUp || c.mcUp
  let sell := c.maDn || c.mcDn
  let s0 := SignalType.NEUTRAL
  let s1 := if strongBuy then SignalType.STRONG_BUY else s0
  let s2 := if strongSell then SignalType.STRONG_SELL else s1
  let s3 := if buy && !strongBuy then SignalType.BUY else s2
  if sell && !strongSell then SignalType.SELL else s3

/-- `SignalGenerator.generate_signals`: the signal series over the index of
the data. -/
def generateSignals (cfg : SignalConfig) (close : List ℚ) : List SignalType :=
  (List.range close.length).map fun t => codeCombine (condsAt cfg close t)

/-! ## Performance metrics (`src/analysis/metrics.py`)

`FinancialMetrics` first drops NaNs from its input; the embedding therefore
works on a NaN-free list of rationals.  Quantities that are irrational in
the source (a standard deviation, the constant `√252`) are represented by
positive-sign-faithful rational surrogates (the variance, and `252`): the
only facts stated about the σ-involving metrics are their NaN/∞
classification, which `√` preserves (`√x` is zero, positive, or NaN exactly
when `x` is). -/

/-- `Series.mean()`: NaN on an empty series. -/
def meanF (xs : List ℚ) : FVal :=
  if xs.length = 0 then FVal.nan else FVal.val (xs.sum / (xs.length : ℚ))

/-- `Series.std()` (`ddof = 1`): NaN on fewer than two values; the finite
value is represented by the sample variance (see section comment). -/
def stdF (xs : List ℚ) : FVal :=
  if xs.length < 2 then FVal.nan
  else
    let m := xs.sum / (xs.length : ℚ)
    FVal.val ((xs.map fun x => (x - m) ^ 2).sum / ((xs.length : ℚ) - 1))

/-- Surrogate for the positive constant `√252` (see section comment). -/
def sqrtPeriods : FVal := FVal.val 252

/-- `total_return`: `(1 + returns).prod() - 1` (the product of an empty
series is `1.0`, so the empty case is `0`). -/
def totalReturnF (xs : List ℚ) : FVal :=
  FVal.val ((xs.map fun r => 1 + r).prod - 1)

/-- `annualized_return`: `(1 + mean)^252 - 1`; NaN propagates from the mean
of an empty series. -/
def annualizedReturnF (xs : List ℚ) : FVal :=
  match meanF xs with
  | FVal.val m => FVal.val ((1 + m) ^ 252 - 1)
  | _ => FVal.nan

/-- `annualized_volatility`: `std * √252`. -/
def annualizedVolF (xs : List ℚ) : FVal :=
  FVal.mul (stdF xs) sqrtPeriods

/-- `sharpe_ratio`: `excess.mean() / excess.std() * √252` with
`excess = returns - risk_free/252`. -/
def sharpeF (rf : ℚ) (xs : List ℚ) : FVal :=
  let excess := xs.map fun r => r - rf / 252
  FVal.mul (FVal.div (meanF excess) (stdF excess)) sqrtPeriods

/-- `sortino_ratio`: explicitly NaN when there are no negative returns,
otherwise `excess.mean() / downside.std() * √252`. -/
def sortinoF (rf : ℚ) (xs : List ℚ) : FVal :=
  let downside := xs.filter fun r => r < 0
  if downside.length = 0 then FVal.nan
  else
    let excess := xs.map fun r => r - rf / 252
    FVal.mul (FVal.div (meanF excess) (stdF downside)) sqrtPeriods

/-- Running product (`Series.cumprod()`). -/
def cumprodAux (acc : ℚ) : List ℚ → List ℚ
  | [] => []
  | x :: xs =>
    let y := acc * x
    y :: cumprodAux y xs

/-- Running maximum (`Series.expanding(min_periods=1).max()`). -/
def runningMaxAux (acc : ℚ) : List ℚ → List ℚ
  | [] => []
  | x :: xs =>
    let y := max acc x
    y :: runningMaxAux y xs

/-- `Series.min()`: NaN on an empty series. -/
def minF : List ℚ → FVal
  | [] => FVal.nan
  | x :: xs => FVal.val (xs.foldl min x)

/-- `max_drawdown`: minimum of `(cumulative - peak)/peak` over the
cumulative-product curve.  (In ℚ a division by a zero peak yields `0`
rather than a float NaN; a zero peak requires a return of exactly `−1`,
a case no stated claim touches.) -/
def maxDrawdownF (xs : List ℚ) : FVal :=
  match xs.map (fun r => 1 + r) with
  | [] => FVal.nan
  | y :: ys =>
    let cumulative := cumprodAux 1 (y :: ys)
    let peak := runningMaxAux (1 * y) cumulative
    minF (List.zipWith (fun c p => (c - p) / p) cumulative peak)

/-- `calmar_ratio`: NaN when `abs(max_drawdown)` equals `0`, otherwise
`annualized_return / abs(max_drawdown)` (a NaN drawdown propagates through
the division, as in the float original where `NaN == 0` is false). -/
def calmarF (xs : List ℚ) : FVal :=
  let mdd := FVal.fabs (maxDrawdownF xs)
  if mdd = FVal.val 0 then FVal.nan
  else FVal.div (annualizedReturnF xs) mdd

/-- `win_rate`: `(returns > 0).mean()`; NaN on an empty series. -/
def winRateF (xs : List ℚ) : FVal :=
  if xs.length = 0 then FVal.nan
  else FVal.val (((xs.filter fun r => 0 < r).length : ℚ) / (xs.length : ℚ))

/-- `profit_factor`: `+∞` when the gross losses are zero. -/
def profitFactorF (xs : List ℚ) : FVal :=
  let grossProfits := (xs.filter fun r => 0 < r).sum
  let grossLosses := |(xs.filter fun r => r < 0).sum|
  if grossLosses = 0 then FVal.inf
  else FVal.val (grossProfits / grossLosses)

/-- `Series.skew()`: NaN below three observations or on zero variance;
the finite value is a sign-faithful rational surrogate for the standardized
third moment (the claims only concern the NaN classification). -/
def skewF (xs : List ℚ) : FVal :=
  if xs.length < 3 then FVal.nan
  else
    let n : ℚ := (xs.length : ℚ)
    let m := xs.sum / n
    let m2 := (xs.map fun x => (x - m) ^ 2).sum
    let m3 := (xs.map fun x => (x - m) ^ 3).sum
    if m2 = 0 then FVal.nan else FVal.val (n * m3 / m2 ^ 2)

/-- `Series.kurtosis()` (unbiased excess kurtosis): NaN below four
observations or on zero variance. -/
def kurtF (xs : List ℚ) : FVal :=
  if xs.length < 4 then FVal.nan
  else
    let n : ℚ := (xs.length : ℚ)
    let m := xs.sum / n
    let m2 := (xs.map fun x => (x - m) ^ 2).sum
    let m4 := (xs.map fun x => (x - m) ^ 4).sum
    if m2 = 0 then FVal.nan
    else
      FVal.val ((n * (n + 1) * (n - 1) * m4 / (m2 ^ 2) - 3 * (n - 1) ^ 2) /
        ((n - 2) * (n - 3)))

/-- The fixed key set of `FinancialMetrics.calculate_all`. -/
structure MetricsRec where
  total_return : FVal
  annualized_return : FVal
  annualized_volatility : FVal
  sharpe_ratio : FVal
  sortino_ratio : FVal
  max_drawdown : FVal
  calmar_ratio : FVal
  win_rate : FVal
  profit_factor : FVal
  skewness : FVal
  kurtosis : FVal
deriving DecidableEq

/-- `FinancialMetrics.calculate_all` on an already NaN-free return series. -/
def calculateAll (rf : ℚ) (xs : List ℚ) : MetricsRec :=
  { total_return := totalReturnF xs
    annualized_return := annualizedReturnF xs
    annualized_volatility := annualizedVolF xs
    sharpe_ratio := sharpeF rf xs
    sortino_ratio := sortinoF rf xs
    max_drawdown := maxDrawdownF xs
    calmar_ratio := calmarF xs
    win_rate := winRateF xs
    profit_factor := profitFactorF xs
    skewness := skewF xs
    kurtosis := kurtF xs }

/-- The value of `Backtester.run` on success. -/
structure BTResult where
  returns : List ℚ
  positions : List Int
  trades : List TradeRec
  metrics : MetricsRec
deriving DecidableEq

/-- `Backtester.run`: validate, then positions, returns, trades, metrics.
A validation failure propagates before any computation (no partial
results). -/
def runBacktester (commission riskFree : ℚ) (inp : BTInput) :
    Except String BTResult :=
  match validateInputs inp with
  | Except.error e => Except.error e
  | Except.ok () =>
    let positions := generatePositions inp.signals
    let returns := calculateReturns commission inp.prices positions
    Except.ok
      { returns := returns
        positions := positions
        trades := generateTradeHistory inp.pricesIndex inp.prices positions
        metrics := calculateAll riskFree returns }

/-! ## Specification-side models

These definitions transcribe the spec's words (§4.3, §4.4) and exist only to
be compared with the source embeddings above. -/

/-- The spec's position transition function (§4.4): BUY while flat or short
goes long, SELL while flat or long goes short, otherwise carry forward. -/
def specTransition (pos : Int) (signal : String) : Int :=
  if signal = "BUY" ∧ pos ≤ 0 then 1
  else if signal = "SELL" ∧ 0 ≤ pos then -1
  else pos

/-- The fold of `specTransition` over the signals in timestamp order,
recording the post-transition state at every timestamp. -/
def specPosAux (pos : Int) : List String → List Int
  | [] => []
  | s :: rest =>
    let pos' := specTransition pos s
    pos' :: specPosAux pos' rest

/-- The spec's position series: the fold starting from FLAT. -/
def specPositions (signals : List String) : List Int :=
  specPosAux 0 signals

/-- One step of the spec's trade-ledger reconstruction (§4.4), written as
the `(state, event) → (state, optional Trade)` fold the spec's design notes
describe: on a position change, close the open trade if the prior position
was non-flat (signed return `sign × (exit − entry)/entry`, duration in
days), and open a new trade if the new position is non-flat. -/
def specLedgerStep (pos : Int) (entry : Option (ℚ × Int))
    (date : Int) (price : ℚ) (newPos : Int) :
    (Int × Option (ℚ × Int)) × Option TradeRec :=
  if newPos = pos then ((pos, entry), none)
  else
    let closed : Option TradeRec :=
      if pos ≠ 0 then
        entry.map fun pe =>
          { entry_date := pe.2, exit_date := date, position := pos,
            entry_price := pe.1, exit_price := price,
            ret := (pos : ℚ) * ((price - pe.1) / pe.1),
            duration := date - pe.2 }
      else none
    let entry' := if newPos ≠ 0 then some (price, date) else entry
    ((newPos, entry'), closed)

/-- The fold of `specLedgerStep` over the position rows, collecting the
closed trades; the trade left open at the end of the series produces no
record. -/
def specLedgerAux (pos : Int) (entry : Option (ℚ × Int)) :
    List (Int × ℚ × Int) → List TradeRec
  | [] => []
  | (date, price, newPos) :: rest =>
    match specLedgerStep pos entry date price newPos with
    | (st, some tr) => tr :: specLedgerAux st.1 st.2 rest
    | (st, none) => specLedgerAux st.1 st.2 rest

/-- The spec's trade ledger over aligned dates, prices and positions. -/
def specLedger (dates : List Int) (prices : List ℚ) (positions : List Int) :
    List TradeRec :=
  specLedgerAux 0 none (dates.zip (prices.zip positions))

/-- The spec's combination rule (§4.3) at one timestamp: STRONG_BUY, then
STRONG_SELL, then BUY, then SELL, then NEUTRAL. -/
def specCombine (c : Conds) : SignalType :=
  let strongBuy := c.maUp && c.rsiOs && c.bbLo && c.mcUp
  let strongSell := c.maDn && c.rsiOb && c.bbHi && c.mcDn
  let buy := c.maUp || c.mcUp
  let sell := c.maDn || c.mcDn
  if strongBuy then SignalType.STRONG_BUY
  else if strongSell then SignalType.STRONG_SELL
  else if buy then SignalType.BUY
  else if sell then SignalType.SELL
  else SignalType.NEUTRAL

/-- The amended combination rule: as `specCombine` but with the two simple
rules in the order the source's sequential assignments realise — SELL is
checked before BUY, so a timestamp where both simple conditions fire (and
no strong signal does) yields SELL. -/
def amendCombine (c : Conds) : SignalType :=
  let strongBuy := c.maUp && c.rsiOs && c.bbLo && c.mcUp
  let strongSell := c.maDn && c.rsiOb && c.bbHi && c.mcDn
  let buy := c.maUp || c.mcUp
  let sell := c.maDn || c.mcDn
  if strongBuy then SignalType.STRONG_BUY
  else if strongSell then SignalType.STRONG_SELL
  else if sell then SignalType.SELL
  else if buy then SignalType.BUY
  else SignalType.NEUTRAL

/-- The signal the spec's combination rule produces at one timestamp, from
the same condition vector the source computes. -/
def specSignalAt (cfg : SignalConfig) (close : List ℚ) (t : ℕ) : SignalType :=
  specCombine (condsAt cfg close t)

/-- Variant of `tradeAux` in which every position change both closes (when
the prior position is non-flat) and opens a trade: the ledger a sign-
reversal-only state machine would produce.  Its agreement with `tradeAux`
on the backtester's position series witnesses that the close-to-flat path
is unreachable. -/
def tradeAuxRev (position : Int) (entry : Option (ℚ × Int)) :
    List (Int × ℚ × Int) → List TradeRec
  | [] => []
  | (date, price, pos) :: rest =>
    if pos ≠ position then
      let closed : List TradeRec :=
        if position ≠ 0 then
          match entry with
          | some (ep, ed) =>
            [{ entry_date := ed, exit_date := date, position := position,
               entry_price := ep, exit_price := price,
               ret := (price - ep) / ep * position, duration := date - ed }]
          | none => []
        else []
      closed ++ tradeAuxRev pos (some (price, date)) rest
    else
      tradeAuxRev position entry rest

/-- The sign-reversal-only ledger over the position rows. -/
def generateTradeHistoryRev (dates : List Int) (prices : List ℚ)
    (positions : List Int) : List TradeRec :=
  tradeAuxRev 0 none (dates.zip (prices.zip positions))

/-! ## Helper lemmas -/

/-- `_generate_positions` and the spec's transition fold agree from any
starting position. -/
theorem genPosAux_eq_specPosAux (sigs : List String) :
    ∀ p : Int, generatePositionsAux p sigs = specPosAux p sigs := by
  induction sigs with
  | nil => intro p; rfl
  | cons s rest ih =>
    intro p
    simp only [generatePositionsAux, specPosAux, specTransition]
    split_ifs <;> simp [ih]

/-- From a long position, a stream of BUY signals leaves the position long
at every step. -/
theorem genPosAux_one_buy : ∀ n : ℕ,
    generatePositionsAux 1 (List.replicate n "BUY") = List.replicate n 1 := by
  intro n
  induction n with
  | zero => rfl
  | succ m ih =>
    simp only [List.replicate, generatePositionsAux]
    split_ifs with h1 h2
    · omega
    · exact absurd h2.1 (by decide)
    · simp [ih]

/-- A trade fold over rows whose positions all equal the tracked position
records nothing. -/
theorem tradeAux_const_one : ∀ (l : List (Int × ℚ × Int)),
    (∀ x ∈ l, x.2.2 = 1) → ∀ e, tradeAux 1 e l = [] := by
  intro l
  induction l with
  | nil => intro _ _; rfl
  | cons row rest ih =>
    rcases row with ⟨d, pr, pos⟩
    intro hall e
    have hpos : pos = 1 := hall (d, pr, pos) (by simp)
    subst hpos
    simp only [tradeAux, ne_eq, not_true_eq_false, if_false, ite_false]
    exact ih (fun x hx => hall x (by simp [hx])) e

/-- From a flat start, all-long position rows make an empty ledger: the
first row opens a trade and nothing ever closes it. -/
theorem tradeAux_zero_ones (l : List (Int × ℚ × Int))
    (hall : ∀ x ∈ l, x.2.2 = 1) : tradeAux 0 none l = [] := by
  cases l with
  | nil => rfl
  | cons row rest =>
    rcases row with ⟨d, pr, pos⟩
    have hpos : pos = 1 := by simpa using hall (d, pr, pos) (by simp)
    subst hpos
    have hrest : ∀ x ∈ rest, x.2.2 = (1 : Int) := fun x hx => hall x (by simp [hx])
    simp [tradeAux, tradeAux_const_one rest hrest]

/-- All-long position rows make an empty ledger. -/
theorem tradeHistory_replicate_one (n : ℕ) (dates : List Int) (prices : List ℚ) :
    generateTradeHistory dates prices (List.replicate n 1) = [] := by
  unfold generateTradeHistory
  refine tradeAux_zero_ones _ ?_
  intro x hx
  have h2 := (List.of_mem_zip hx).2
  have h3 := (List.of_mem_zip h2).2
  exact List.eq_of_mem_replicate h3

/-- The source's trade-history loop and the spec's ledger fold agree from
any state. -/
theorem tradeAux_eq_specLedgerAux : ∀ (l : List (Int × ℚ × Int)) (p : Int)
    (e : Option (ℚ × Int)), tradeAux p e l = specLedgerAux p e l := by
  intro l
  induction l with
  | nil => intro p e; rfl
  | cons row rest ih =>
    rcases row with ⟨d, pr, pos⟩
    intro p e
    by_cases hpos : pos = p
    · simp [tradeAux, specLedgerAux, specLedgerStep, hpos, ih]
    · by_cases hp : p = 0
      · have hz : pos ≠ 0 := by rw [hp] at hpos; exact hpos
        simp [tradeAux, specLedgerAux, specLedgerStep, hpos, hp, hz, ih]
      · cases e with
        | none => simp [tradeAux, specLedgerAux, specLedgerStep, hpos, hp, ih]
        | some pe =>
          simp [tradeAux, specLedgerAux, specLedgerStep, hpos, hp, ih,
            mul_comm]

/-- A fixed small valid backtester input used by witnesses. -/
def sampleInput : BTInput :=
  { pricesIndex := [0, 1, 2]
    pricesIndexIsDatetime := true
    signalsIndex := [0, 1, 2]
    prices := [100, 101, 102]
    signals := ["BUY", "NEUTRAL", "SELL"] }

/-! ## C1 — position state machine -/

/-- C1: for every accepted prices/signals pair, `_generate_positions` is the
fold in timestamp order of the spec's transition function from FLAT (BUY
while ≤ 0 goes long, SELL while ≥ 0 goes short, otherwise carry forward);
and a repeated BUY stream while already long never changes the position nor
records a Trade. -/
theorem c1_position_state_machine (inp : BTInput)
    (h : validateInputs inp = Except.ok ()) :
    generatePositions inp.signals = specPositions inp.signals
    ∧ (∀ n : ℕ, generatePositions (List.replicate n "BUY") = List.replicate n 1)
    ∧ (∀ (n : ℕ) (dates : List Int) (prices : List ℚ),
        generateTradeHistory dates prices (List.replicate n 1) = []) := by
  refine ⟨genPosAux_eq_specPosAux inp.signals 0, ?_, ?_⟩
  · intro n
    cases n with
    | zero => rfl
    | succ m =>
      show generatePositionsAux 0 (List.replicate (m + 1) "BUY") = _
      simp only [List.replicate, generatePositionsAux]
      norm_num [genPosAux_one_buy m]
  · intro n dates prices
    exact tradeHistory_replicate_one n dates prices

/-- Witness for C1 at a concrete accepted input. -/
theorem c1_position_state_machine_witness :
    generatePositions sampleInput.signals = specPositions sampleInput.signals
    ∧ generatePositions (List.replicate 3 "BUY") = List.replicate 3 1
    ∧ generateTradeHistory [0, 1, 2] [100, 101, 102] (List.replicate 3 1) = [] := by
  have h := c1_position_state_machine sampleInput (by rfl)
  exact ⟨h.1, h.2.1 3, h.2.2 3 [0, 1, 2] [100, 101, 102]⟩

/-! ## C4 — trade ledger reconstruction -/

/-- C4: the source's trade-history reconstruction equals the spec's ledger
fold (close on a change from a non-flat position with the signed return and
day-count duration, open on a change to a non-flat position, no force-close
of a still-open trade), and the spec's concrete scenario: prices
`[100, 110, 121, 108.9]` with signals `[NEUTRAL, BUY, NEUTRAL, SELL]` and
commission 0 give positions `[0, 1, 1, −1]`, strategy return `0.10` at
`t = 2`, and exactly one trade, opened at `t = 1` at price 110 and closed at
`t = 3` with return `−0.01`. -/
theorem c4_trade_ledger :
    (∀ (dates : List Int) (prices : List ℚ) (positions : List Int),
        generateTradeHistory dates prices positions =
          specLedger dates prices positions)
    ∧ generatePositions ["NEUTRAL", "BUY", "NEUTRAL", "SELL"] = [0, 1, 1, -1]
    ∧ (calculateReturns 0 [100, 110, 121, 1089/10] [0, 1, 1, -1]).get? 1 =
        some (1/10)
    ∧ generateTradeHistory [0, 1, 2, 3] [100, 110, 121, 1089/10] [0, 1, 1, -1] =
        [{ entry_date := 1, exit_date := 3, position := 1, entry_price := 110,
           exit_price := 1089/10, ret := -(1/100), duration := 2 }] := by
  refine ⟨?_, by decide, ?_, ?_⟩
  · intro dates prices positions
    exact tradeAux_eq_specLedgerAux _ 0 none
  · norm_num [calculateReturns, pctChange, shiftOne, diffList, omul, osub,
      List.filterMap_cons, id]
  · norm_num [generateTradeHistory, tradeAux]

/-! ## C5 — backtester input validation -/

/-- C5 counterexample: two series of equal length whose datetime indexes
differ pass validation and `run` succeeds, contradicting the claim that a
non-identical index raises a validation error. -/
theorem c5_validation_counterexample :
    validateInputs
        { pricesIndex := [0, 1], pricesIndexIsDatetime := true,
          signalsIndex := [5, 6], prices := [100, 101],
          signals := ["BUY", "SELL"] } = Except.ok ()
    ∧ ([0, 1] : List Int) ≠ [5, 6]
    ∧ (runBacktester (1/1000) (1/50)
        { pricesIndex := [0, 1], pricesIndexIsDatetime := true,
          signalsIndex := [5, 6], prices := [100, 101],
          signals := ["BUY", "SELL"] }).isOk = true :=
  ⟨rfl, by decide, rfl⟩

/-- C5 (amended): `run` raises a validation error, before any computation,
exactly when the lengths differ, the prices' index is not a DatetimeIndex,
or a signal falls outside `{BUY, SELL, NEUTRAL}`; the signals' index is
never compared with the prices' index. -/
theorem c5_validation (inp : BTInput) :
    (validateInputs inp = Except.ok () ↔
      (inp.prices.length = inp.signals.length ∧
       inp.pricesIndexIsDatetime = true ∧
       ∀ s ∈ inp.signals, s = "BUY" ∨ s = "SELL" ∨ s = "NEUTRAL"))
    ∧ (∀ (c rf : ℚ) (e : String),
        runBacktester c rf inp = Except.error e ↔
          validateInputs inp = Except.error e) := by
  constructor
  · unfold validateInputs
    split_ifs with h1 h2 h3
    · simp_all
    · simp_all
    · constructor
      · intro h; exact absurd h (by simp)
      · intro h
        rcases h with ⟨-, -, hvoc⟩
        rw [Bool.not_eq_true', List.all_eq_false] at h3
        rcases h3 with ⟨s, hs, hfalse⟩
        rcases hvoc s hs with h | h | h <;> simp [h] at hfalse
    · constructor
      · intro _
        refine ⟨by omega, by simpa using h2, ?_⟩
        intro s hs
        rw [Bool.not_eq_true', Bool.not_eq_false] at h3
        have := List.all_eq_true.mp h3 s hs
        simp at this
        tauto
      · intro _; rfl
  · intro c rf e
    unfold runBacktester
    cases hv : validateInputs inp with
    | error e0 => simp [hv]
    | ok u => cases u; simp [hv]

/-! ## C7 — empty-input handling -/

/-- C7 counterexample: the zero-length input passes validation and `run`
returns a (degenerate) result instead of raising a `ValidationError`. -/
theorem c7_empty_counterexample :
    runBacktester (1/1000) (1/50)
        { pricesIndex := [], pricesIndexIsDatetime := true,
          signalsIndex := [], prices := [], signals := [] } =
      Except.ok { returns := [], positions := [], trades := [],
                  metrics := calculateAll (1/50) [] } := rfl

/-- C7 (amended): empty series are not rejected — for every commission and
risk-free rate, `run` on the zero-length input returns a result with empty
returns, positions and trades, and the degenerate metrics record (NaN
ratios, zero total return, `+∞` profit factor). -/
theorem c7_empty_run (c rf : ℚ) :
    runBacktester c rf
        { pricesIndex := [], pricesIndexIsDatetime := true,
          signalsIndex := [], prices := [], signals := [] } =
      Except.ok { returns := [], positions := [], trades := [],
                  metrics := calculateAll rf [] }
    ∧ calculateAll rf [] =
      { total_return := FVal.val 0, annualized_return := FVal.nan,
        annualized_volatility := FVal.nan, sharpe_ratio := FVal.nan,
        sortino_ratio := FVal.nan, max_drawdown := FVal.nan,
        calmar_ratio := FVal.nan, win_rate := FVal.nan,
        profit_factor := FVal.inf, skewness := FVal.nan,
        kurtosis := FVal.nan } := by
  refine ⟨rfl, ?_⟩
  norm_num [calculateAll, totalReturnF, annualizedReturnF, meanF,
    annualizedVolF, stdF, sharpeF, sortinoF, maxDrawdownF, calmarF, winRateF,
    profitFactorF, skewF, kurtF, FVal.mul, FVal.div, FVal.fabs, sqrtPeriods]

/-! ## C6 — SignalConfig construction rejection -/

/-- The in-range predicate of the amended C6 claim for one parameter group
present in the `parameters` mapping, with the documented defaults filled in
before range-checking; names without a validation branch are unconstrained. -/
def groupInRange (name : String) (ps : List (String × ℚ)) : Prop :=
  if name = "rsi" then
    (10 ≤ pget ps "period" 14 ∧ pget ps "period" 14 ≤ 30) ∧
    (60 ≤ pget ps "overbought" 70 ∧ pget ps "overbought" 70 ≤ 80) ∧
    (20 ≤ pget ps "oversold" 30 ∧ pget ps "oversold" 30 ≤ 40)
  else if name = "macd" then
    (8 ≤ pget ps "fast_period" 12 ∧ pget ps "fast_period" 12 ≤ 26) ∧
    (12 ≤ pget ps "slow_period" 26 ∧ pget ps "slow_period" 26 ≤ 50) ∧
    (5 ≤ pget ps "signal_period" 9 ∧ pget ps "signal_period" 9 ≤ 20)
  else if name = "moving_average" then
    (5 ≤ pget ps "short_window" 20 ∧ pget ps "short_window" 20 ≤ 50) ∧
    (20 ≤ pget ps "long_window" 50 ∧ pget ps "long_window" 50 ≤ 200)
  else if name = "bollinger" then
    (10 ≤ pget ps "window" 20 ∧ pget ps "window" 20 ≤ 50) ∧
    (3/2 ≤ pget ps "std_dev" 2 ∧ pget ps "std_dev" 2 ≤ 3)
  else True

/-- One parameter group validates exactly when it is in range. -/
theorem validateGroup_ok_iff (name : String) (ps : List (String × ℚ)) :
    validateGroup name ps = Except.ok () ↔ groupInRange name ps := by
  unfold validateGroup groupInRange
  split_ifs <;> simp_all <;> tauto

/-- The validation loop succeeds exactly when every present group is in
range. -/
theorem validateParams_ok_iff : ∀ l : List (String × List (String × ℚ)),
    validateParams l = Except.ok () ↔ ∀ g ∈ l, groupInRange g.1 g.2 := by
  intro l
  induction l with
  | nil => simp [validateParams]
  | cons g rest ih =>
    rcases g with ⟨name, ps⟩
    simp only [validateParams]
    cases hg : validateGroup name ps with
    | error e =>
      constructor
      · intro h; exact absurd h (by simp)
      · intro h
        have := (validateGroup_ok_iff name ps).mpr (h (name, ps) (by simp))
        rw [hg] at this
        exact absurd this (by simp)
    | ok u =>
      cases u
      rw [ih]
      constructor
      · intro h
        intro x hx
        rcases List.mem_cons.mp hx with rfl | hx'
        · exact (validateGroup_ok_iff name ps).mp hg
        · exact h x hx'
      · intro h x hx
        exact h x (List.mem_cons_of_mem _ hx)

/-- C6 counterexample: with an empty enabled set, an out-of-range `rsi`
parameter group present only in `parameters` still makes construction fail,
so validation is keyed on the `parameters` mapping, not the enabled set. -/
theorem c6_config_counterexample :
    (SignalConfig.mk [] [("rsi", [("period", 5)])]).enabled = []
    ∧ (SignalConfig.mk [] [("rsi", [("period", 5)])]).validate =
        Except.error "RSI period must be between 10 and 30" := by
  refine ⟨rfl, ?_⟩
  norm_num [SignalConfig.validate, validateParams, validateGroup, pget,
    List.lookup]

/-- C6 (amended): construction fails fast if and only if some parameter
group present in the `parameters` mapping (among rsi, macd, moving_average,
bollinger) has a parameter outside its allowed range after the documented
defaults are filled in; the enabled set plays no role in validation. -/
theorem c6_config_validation (cfg : SignalConfig) :
    (cfg.validate = Except.ok () ↔ ∀ g ∈ cfg.parameters, groupInRange g.1 g.2)
    ∧ ∀ e : List (String × Bool),
        (SignalConfig.mk e cfg.parameters).validate = cfg.validate := by
  exact ⟨validateParams_ok_iff cfg.parameters, fun e => rfl⟩

/-! ## C10 — implicit no-return-to-flat invariant -/

/-- The position loop always emits a head state and continues from it:
`aux p (s :: rest) = p' :: aux p' rest` with `p'` nonzero whenever `p` is,
and `p'` within `{−1, 0, 1}` whenever `p` is (indeed `p' ∈ {−1, 1, p}`). -/
theorem genPosAux_cons (s : String) (rest : List String) (p : Int) :
    ∃ p' : Int, generatePositionsAux p (s :: rest) =
        p' :: generatePositionsAux p' rest
      ∧ (p' = 1 ∨ p' = -1 ∨ p' = p) := by
  by_cases h1 : s = "BUY" ∧ p ≤ 0
  · exact ⟨1, by simp [generatePositionsAux, h1], Or.inl rfl⟩
  · by_cases h2 : s = "SELL" ∧ 0 ≤ p
    · exact ⟨-1, by simp [generatePositionsAux, h1, h2], Or.inr (Or.inl rfl)⟩
    · exact ⟨p, by simp [generatePositionsAux, h1, h2], Or.inr (Or.inr rfl)⟩

/-- Every emitted position is in `{−1, 0, 1}` when the start state is. -/
theorem genPosAux_mem_range : ∀ (sigs : List String) (p : Int),
    (p = -1 ∨ p = 0 ∨ p = 1) →
    ∀ x ∈ generatePositionsAux p sigs, x = -1 ∨ x = 0 ∨ x = 1 := by
  intro sigs
  induction sigs with
  | nil => intro p _ x hx; simp [generatePositionsAux] at hx
  | cons s rest ih =>
    intro p hp x hx
    obtain ⟨p', heq, hcase⟩ := genPosAux_cons s rest p
    rw [heq] at hx
    have hp' : p' = -1 ∨ p' = 0 ∨ p' = 1 := by
      rcases hcase with rfl | rfl | rfl
      · exact Or.inr (Or.inr rfl)
      · exact Or.inl rfl
      · exact hp
    rcases List.mem_cons.mp hx with rfl | hx'
    · exact hp'
    · exact ih p' hp' x hx'

/-- From a nonzero state, every later emitted position is nonzero. -/
theorem genPosAux_mem_nonzero : ∀ (sigs : List String) (p : Int), p ≠ 0 →
    ∀ x ∈ generatePositionsAux p sigs, x ≠ 0 := by
  intro sigs
  induction sigs with
  | nil => intro p _ x hx; simp [generatePositionsAux] at hx
  | cons s rest ih =>
    intro p hp x hx
    obtain ⟨p', heq, hcase⟩ := genPosAux_cons s rest p
    rw [heq] at hx
    have hp' : p' ≠ 0 := by
      rcases hcase with rfl | rfl | rfl
      · decide
      · decide
      · exact hp
    rcases List.mem_cons.mp hx with rfl | hx'
    · exact hp'
    · exact ih p' hp' x hx'

/-- Once the emitted position is nonzero, every later one is nonzero. -/
theorem genPosAux_get_nonzero : ∀ (sigs : List String) (p : Int)
    (i j : ℕ) (a b : Int), i ≤ j →
    (generatePositionsAux p sigs).get? i = some a →
    (generatePositionsAux p sigs).get? j = some b → a ≠ 0 → b ≠ 0 := by
  intro sigs
  induction sigs with
  | nil => intro p i j a b _ ha _ _; simp [generatePositionsAux] at ha
  | cons s rest ih =>
    intro p i j a b hij ha hb hane
    obtain ⟨p', heq, -⟩ := genPosAux_cons s rest p
    rw [heq] at ha hb
    cases i with
    | zero =>
      have hap : p' = a := by simpa using ha
      have hpz : p' ≠ 0 := by rw [hap]; exact hane
      cases j with
      | zero =>
        have hbp : p' = b := by simpa using hb
        rw [← hbp]; exact hpz
      | succ j' =>
        have hbmem : b ∈ generatePositionsAux p' rest :=
          List.get?_mem (by simpa using hb)
        exact genPosAux_mem_nonzero rest p' hpz b hbmem
    | succ i' =>
      cases j with
      | zero => omega
      | succ j' =>
        exact ih p' i' j' a b (by omega) (by simpa using ha) (by simpa using hb)
          hane

/-- The consecutive-pair invariant "a nonzero state is never followed by a
zero one", as a predicate on a start state and a position list. -/
def chainOK : Int → List Int → Prop
  | _, [] => True
  | p, x :: xs => (p ≠ 0 → x ≠ 0) ∧ chainOK x xs

/-- The backtester's position stream satisfies the chain invariant from any
start state. -/
theorem chainOK_genPosAux : ∀ (sigs : List String) (p : Int),
    chainOK p (generatePositionsAux p sigs) := by
  intro sigs
  induction sigs with
  | nil => intro p; trivial
  | cons s rest ih =>
    intro p
    obtain ⟨p', heq, hcase⟩ := genPosAux_cons s rest p
    rw [heq]
    refine ⟨?_, ih p'⟩
    intro hp
    rcases hcase with rfl | rfl | rfl
    · decide
    · decide
    · exact hp

/-- The chain invariant survives truncation. -/
theorem chainOK_take : ∀ (l : List Int) (p : Int) (k : ℕ),
    chainOK p l → chainOK p (l.take k) := by
  intro l
  induction l with
  | nil => intro p k _; simp [chainOK]
  | cons x xs ih =>
    intro p k h
    cases k with
    | zero => trivial
    | succ k' => exact ⟨h.1, ih x k' h.2⟩

/-- Second components of a zip: a truncation of the second list. -/
theorem map_snd_zip_eq_take {α β : Type} : ∀ (l1 : List α) (l2 : List β),
    (l1.zip l2).map Prod.snd = l2.take l1.length := by
  intro l1
  induction l1 with
  | nil => intro l2; simp
  | cons x xs ih =>
    intro l2
    cases l2 with
    | nil => simp
    | cons y ys => simp [List.zip_cons_cons, ih]

/-- On rows whose position components satisfy the chain invariant, the
source's ledger loop and the sign-reversal-only variant agree: the
close-without-reopen path is never taken. -/
theorem tradeAux_eq_rev : ∀ (l : List (Int × ℚ × Int)) (p : Int)
    (e : Option (ℚ × Int)), chainOK p (l.map fun x => x.2.2) →
    tradeAux p e l = tradeAuxRev p e l := by
  intro l
  induction l with
  | nil => intro p e _; rfl
  | cons row rest ih =>
    rcases row with ⟨d, pr, pos⟩
    intro p e hchain
    rcases hchain with ⟨himp, hrest⟩
    by_cases hpos : pos = p
    · subst hpos
      simp only [tradeAux, tradeAuxRev, ne_eq, not_true_eq_false, if_false,
        ite_false]
      exact ih pos e hrest
    · have hz : pos ≠ 0 := by
        by_cases hp : p = 0
        · rw [hp] at hpos; exact hpos
        · exact himp hp
      simp only [tradeAux, tradeAuxRev]
      rw [if_pos hpos, if_pos hpos, if_pos hz]
      exact congrArg _ (ih pos (some (pr, d)) hrest)

/-- The source ledger and the sign-reversal-only ledger agree on the
backtester's position series. -/
theorem tradeHistory_eq_rev (dates : List Int) (prices : List ℚ)
    (sigs : List String) :
    generateTradeHistory dates prices (generatePositions sigs) =
      generateTradeHistoryRev dates prices (generatePositions sigs) := by
  unfold generateTradeHistory generateTradeHistoryRev
  apply tradeAux_eq_rev
  have hproj : (dates.zip (prices.zip (generatePositions sigs))).map
      (fun x => x.2.2) =
      ((generatePositions sigs).take prices.length).take dates.length := by
    have h1 : (dates.zip (prices.zip (generatePositions sigs))).map
        (fun x => x.2.2) =
        ((dates.zip (prices.zip (generatePositions sigs))).map Prod.snd).map
          Prod.snd := by
      rw [List.map_map]; rfl
    rw [h1, map_snd_zip_eq_take, List.map_take, map_snd_zip_eq_take]
  rw [hproj]
  exact chainOK_take _ 0 _ (chainOK_take _ 0 _ (chainOK_genPosAux sigs 0))

/-- C10: for every accepted signals series the positions lie in
`{−1, 0, 1}`, once nonzero the position never returns to flat, and the
trade ledger coincides with the one a sign-reversal-only machine produces
(the spec's close-to-flat case is unreachable). -/
theorem c10_no_return_to_flat (inp : BTInput)
    (h : validateInputs inp = Except.ok ()) :
    (∀ x ∈ generatePositions inp.signals, x = -1 ∨ x = 0 ∨ x = 1)
    ∧ (∀ (i j : ℕ) (a b : Int), i ≤ j →
        (generatePositions inp.signals).get? i = some a →
        (generatePositions inp.signals).get? j = some b → a ≠ 0 → b ≠ 0)
    ∧ (∀ (dates : List Int) (prices : List ℚ),
        generateTradeHistory dates prices (generatePositions inp.signals) =
          generateTradeHistoryRev dates prices
            (generatePositions inp.signals)) := by
  refine ⟨?_, ?_, ?_⟩
  · exact genPosAux_mem_range inp.signals 0 (Or.inr (Or.inl rfl))
  · intro i j a b hij ha hb hane
    exact genPosAux_get_nonzero inp.signals 0 i j a b hij ha hb hane
  · intro dates prices
    exact tradeHistory_eq_rev dates prices inp.signals

/-- Witness for C10 at a concrete accepted input. -/
theorem c10_no_return_to_flat_witness :
    ((1 : Int) = -1 ∨ (1 : Int) = 0 ∨ (1 : Int) = 1)
    ∧ generateTradeHistory [0, 1, 2] [100, 101, 102]
        (generatePositions sampleInput.signals) =
      generateTradeHistoryRev [0, 1, 2] [100, 101, 102]
        (generatePositions sampleInput.signals) := by
  have h := c10_no_return_to_flat sampleInput (by rfl)
  exact ⟨h.1 1 (by decide), h.2.2 [0, 1, 2] [100, 101, 102]⟩

/-! ## C2 — return computation -/

/-- Elementwise description of `zipWith`. -/
theorem zipWith_get?_eq {α β γ : Type} (f : α → β → γ) :
    ∀ (l1 : List α) (l2 : List β) (i : ℕ),
    (List.zipWith f l1 l2).get? i =
      match l1.get? i, l2.get? i with
      | some a, some b => some (f a b)
      | _, _ => none := by
  intro l1
  induction l1 with
  | nil => intro l2 i; cases l2 <;> cases i <;> rfl
  | cons x xs ih =>
    intro l2 i
    cases l2 with
    | nil =>
      cases i with
      | zero => rfl
      | succ n => cases hx : (x :: xs).get? (n + 1) <;> simp [hx]
    | cons y ys =>
      cases i with
      | zero => rfl
      | succ i' => simpa using ih ys i'

/-- Membership decomposition for `zipWith`. -/
theorem exists_of_mem_zipWith {α β γ : Type} {f : α → β → γ} :
    ∀ {l1 : List α} {l2 : List β} {x : γ}, x ∈ List.zipWith f l1 l2 →
      ∃ a b, a ∈ l1 ∧ b ∈ l2 ∧ x = f a b := by
  intro l1
  induction l1 with
  | nil => intro l2 x hx; simp at hx
  | cons a as ih =>
    intro l2 x hx
    cases l2 with
    | nil => simp at hx
    | cons b bs =>
      rw [List.zipWith_cons_cons] at hx
      rcases List.mem_cons.mp hx with rfl | hx'
      · exact ⟨a, b, by simp, by simp, rfl⟩
      · obtain ⟨a', b', ha', hb', hx''⟩ := ih hx'
        exact ⟨a', b', by simp [ha'], by simp [hb'], hx''⟩

/-- `filterMap id` of an all-`some` list, elementwise. -/
theorem filterMap_id_get? : ∀ (l : List (Option ℚ)),
    (∀ x ∈ l, x.isSome) →
    ∀ i, (l.filterMap id).get? i = (l.get? i).bind id := by
  intro l
  induction l with
  | nil => intro _ i; rfl
  | cons x xs ih =>
    intro hall i
    cases x with
    | none => exact absurd (hall none (by simp)) (by simp)
    | some a =>
      rw [show List.filterMap id (some a :: xs) = a :: List.filterMap id xs
        from by simp]
      cases i with
      | zero => rfl
      | succ i' =>
        rw [show (a :: List.filterMap id xs).get? (i' + 1)
            = (List.filterMap id xs).get? i' from rfl]
        rw [show ((some a :: xs).get? (i' + 1)).bind id
            = (xs.get? i').bind id from rfl]
        exact ih (fun y hy => hall y (by simp [hy])) i'

/-- A successful validation implies equal series lengths. -/
theorem validateInputs_ok_length (inp : BTInput)
    (h : validateInputs inp = Except.ok ()) :
    inp.prices.length = inp.signals.length := by
  unfold validateInputs at h
  split_ifs at h with h1 h2 h3
  omega

/-- `_generate_positions` preserves the series length. -/
theorem genPosAux_length : ∀ (sigs : List String) (p : Int),
    (generatePositionsAux p sigs).length = sigs.length := by
  intro sigs
  induction sigs with
  | nil => intro p; rfl
  | cons s rest ih =>
    intro p
    obtain ⟨p', heq, -⟩ := genPosAux_cons s rest p
    rw [heq]
    simp [ih p']

/-- The strategy-return element at offset `k` of the dropna'd series:
the position held at `k` times the percentage price change from `k` to
`k + 1`, minus the absolute position change times the commission. -/
theorem calculateReturns_get (c : ℚ) (prices : List ℚ) (positions : List Int)
    (hlen : positions.length = prices.length) (k : ℕ)
    (hk : k + 1 < prices.length) (pPrev pCur : ℚ) (posPrev posCur : Int)
    (h1 : prices.get? k = some pPrev) (h2 : prices.get? (k + 1) = some pCur)
    (h3 : positions.get? k = some posPrev)
    (h4 : positions.get? (k + 1) = some posCur) :
    (calculateReturns c prices positions).get? k =
      some ((posPrev : ℚ) * (pCur / pPrev - 1) -
        |(posCur : ℚ) - (posPrev : ℚ)| * c) := by
  cases prices with
  | nil => simp at hk
  | cons p0 ptail =>
  cases positions with
  | nil => simp at hlen
  | cons q0 qtail =>
    have hqlen : qtail.length = ptail.length := by simpa using hlen
    have hk' : k < qtail.length := by
      have : k < ptail.length := by simpa using Nat.lt_of_succ_lt_succ (by simpa using hk)
      omega
    have h2' : ptail.get? k = some pCur := h2
    have h4' : qtail.get? k = some posCur := h4
    simp only [calculateReturns, List.map_cons]
    rw [show shiftOne ((q0 : ℚ) :: (qtail.map fun p => ((p : Int) : ℚ))) =
        none :: (((q0 : ℚ) :: (qtail.map fun p => ((p : Int) : ℚ))).take
          (qtail.map fun p => ((p : Int) : ℚ)).length).map some from rfl,
      show pctChange (p0 :: ptail) =
        none :: List.zipWith (fun prev cur => some (cur / prev - 1))
          (p0 :: ptail) ptail from rfl,
      show diffList ((q0 : ℚ) :: (qtail.map fun p => ((p : Int) : ℚ))) =
        none :: List.zipWith (fun prev cur => some (cur - prev))
          ((q0 : ℚ) :: (qtail.map fun p => ((p : Int) : ℚ)))
          (qtail.map fun p => ((p : Int) : ℚ)) from rfl,
      List.map_cons, List.zipWith_cons_cons, List.zipWith_cons_cons]
    have hA : ((((q0 : ℚ) :: qtail.map fun p => ((p : Int) : ℚ)).take
        ((qtail.map fun p => ((p : Int) : ℚ)).length)).map some).get? k =
        some (some ((posPrev : ℚ))) := by
      rw [List.get?_map, List.get?_take (by simpa using hk')]
      have hpq : (((q0 : ℚ) :: qtail.map fun p => ((p : Int) : ℚ))).get? k =
          some ((posPrev : ℚ)) := by
        rw [show ((q0 : ℚ) :: qtail.map fun p => ((p : Int) : ℚ)) =
            ((q0 :: qtail).map fun p => ((p : Int) : ℚ)) from rfl]
        rw [List.get?_map, h3]
        rfl
      rw [hpq]
      rfl
    have hB : (List.zipWith (fun prev cur => some (cur / prev - 1))
        (p0 :: ptail) ptail).get? k = some (some (pCur / pPrev - 1)) := by
      rw [zipWith_get?_eq, h1, h2']
    have hD : (List.zipWith (fun prev cur => some (cur - prev))
        ((q0 : ℚ) :: (qtail.map fun p => ((p : Int) : ℚ)))
        (qtail.map fun p => ((p : Int) : ℚ))).get? k =
        some (some ((posCur : ℚ) - (posPrev : ℚ))) := by
      rw [zipWith_get?_eq]
      have hpq : (((q0 : ℚ) :: qtail.map fun p => ((p : Int) : ℚ))).get? k =
          some ((posPrev : ℚ)) := by
        rw [show ((q0 : ℚ) :: qtail.map fun p => ((p : Int) : ℚ)) =
            ((q0 :: qtail).map fun p => ((p : Int) : ℚ)) from rfl]
        rw [List.get?_map, h3]
        rfl
      have hqq : (qtail.map fun p => ((p : Int) : ℚ)).get? k =
          some ((posCur : ℚ)) := by
        rw [List.get?_map, h4']
        rfl
      rw [hpq, hqq]
    have hallsome : ∀ x ∈ List.zipWith osub
        (List.zipWith omul
          ((((q0 : ℚ) :: (qtail.map fun p => ((p : Int) : ℚ))).take
            (qtail.map fun p => ((p : Int) : ℚ)).length).map some)
          (List.zipWith (fun prev cur => some (cur / prev - 1))
            (p0 :: ptail) ptail))
        ((List.zipWith (fun prev cur => some (cur - prev))
          ((q0 : ℚ) :: (qtail.map fun p => ((p : Int) : ℚ)))
          (qtail.map fun p => ((p : Int) : ℚ))).map
            (Option.map fun d => |d| * c)), x.isSome := by
      intro x hx
      obtain ⟨sv, cm, hs, hcm, rfl⟩ := exists_of_mem_zipWith hx
      obtain ⟨a, b, ha, hb, rfl⟩ := exists_of_mem_zipWith hs
      obtain ⟨a0, -, rfl⟩ := List.mem_map.mp ha
      obtain ⟨b1, b2, -, -, rfl⟩ := exists_of_mem_zipWith hb
      obtain ⟨d0, hd0, rfl⟩ := List.mem_map.mp hcm
      obtain ⟨w1, w2, -, -, rfl⟩ := exists_of_mem_zipWith hd0
      simp [omul, osub]
    rw [show (List.filterMap id (osub (omul none none)
        ((Option.map fun d => |d| * c) none) :: List.zipWith osub
        (List.zipWith omul
          ((((q0 : ℚ) :: (qtail.map fun p => ((p : Int) : ℚ))).take
            (qtail.map fun p => ((p : Int) : ℚ)).length).map some)
          (List.zipWith (fun prev cur => some (cur / prev - 1))
            (p0 :: ptail) ptail))
        ((List.zipWith (fun prev cur => some (cur - prev))
          ((q0 : ℚ) :: (qtail.map fun p => ((p : Int) : ℚ)))
          (qtail.map fun p => ((p : Int) : ℚ))).map
            (Option.map fun d => |d| * c)))) = List.filterMap id
        (List.zipWith osub
        (List.zipWith omul
          ((((q0 : ℚ) :: (qtail.map fun p => ((p : Int) : ℚ))).take
            (qtail.map fun p => ((p : Int) : ℚ)).length).map some)
          (List.zipWith (fun prev cur => some (cur / prev - 1))
            (p0 :: ptail) ptail))
        ((List.zipWith (fun prev cur => some (cur - prev))
          ((q0 : ℚ) :: (qtail.map fun p => ((p : Int) : ℚ)))
          (qtail.map fun p => ((p : Int) : ℚ))).map
            (Option.map fun d => |d| * c))) from rfl]
    rw [filterMap_id_get? _ hallsome k]
    rw [zipWith_get?_eq, zipWith_get?_eq, hA, hB, List.get?_map, hD]
    rfl

/-- All-NEUTRAL signals leave the position untouched at every step. -/
theorem genPosAux_neutral : ∀ (sigs : List String) (p : Int),
    (∀ s ∈ sigs, s = "NEUTRAL") →
    generatePositionsAux p sigs = List.replicate sigs.length p := by
  intro sigs
  induction sigs with
  | nil => intro p _; rfl
  | cons s rest ih =>
    intro p hall
    have hs : s = "NEUTRAL" := hall s (by simp)
    subst hs
    simp only [generatePositionsAux]
    rw [if_neg (by simp), if_neg (by simp)]
    simp [List.replicate_succ, ih p fun x hx => hall x (by simp [hx])]

/-- Elements of the shifted all-zero position series are NaN or zero. -/
theorem shiftOne_replicate_zero_mem (n : ℕ) (a : Option ℚ)
    (ha : a ∈ shiftOne (List.replicate n (0 : ℚ))) :
    a = none ∨ a = some 0 := by
  cases n with
  | zero => simp [shiftOne] at ha
  | succ m =>
    simp only [List.replicate_succ, shiftOne] at ha
    rcases List.mem_cons.mp ha with rfl | ha'
    · exact Or.inl rfl
    · right
      obtain ⟨y, hy, rfl⟩ := List.mem_map.mp ha'
      have hy' := List.mem_of_mem_take hy
      rcases List.mem_cons.mp hy' with rfl | hy''
      · rfl
      · rw [List.eq_of_mem_replicate hy'']

/-- Elements of the diff of the all-zero position series are NaN or zero. -/
theorem diffList_replicate_zero_mem (n : ℕ) (d : Option ℚ)
    (hd : d ∈ diffList (List.replicate n (0 : ℚ))) :
    d = none ∨ d = some 0 := by
  cases n with
  | zero => simp [diffList] at hd
  | succ m =>
    simp only [List.replicate_succ, diffList] at hd
    rcases List.mem_cons.mp hd with rfl | hd'
    · exact Or.inl rfl
    · right
      obtain ⟨a, b, ha, hb, rfl⟩ := exists_of_mem_zipWith hd'
      have ha0 : a = 0 := by
        rcases List.mem_cons.mp ha with rfl | ha'
        · rfl
        · exact List.eq_of_mem_replicate ha'
      have hb0 : b = 0 := List.eq_of_mem_replicate hb
      rw [ha0, hb0]
      norm_num

/-- With an all-flat position series every dropna'd strategy return is 0. -/
theorem calculateReturns_zero (c : ℚ) (prices : List ℚ) (n : ℕ) :
    ∀ r ∈ calculateReturns c prices (List.replicate n 0), r = 0 := by
  intro r hr
  unfold calculateReturns at hr
  simp only [List.map_replicate, Int.cast_zero] at hr
  obtain ⟨x, hx, hxr⟩ := List.mem_filterMap.mp hr
  obtain ⟨sv, cm, hs, hcm, rfl⟩ := exists_of_mem_zipWith hx
  obtain ⟨a, b, ha, hb, rfl⟩ := exists_of_mem_zipWith hs
  obtain ⟨d0, hd0, rfl⟩ := List.mem_map.mp hcm
  rcases shiftOne_replicate_zero_mem n a ha with rfl | rfl
  · simp [omul, osub] at hxr
  · rcases diffList_replicate_zero_mem n d0 hd0 with rfl | rfl
    · cases b <;> simp [omul, osub] at hxr
    · cases b with
      | none => simp [omul, osub] at hxr
      | some y =>
        simp only [omul, osub, Option.map_some', id_eq] at hxr
        injection hxr with h'
        rw [← h']
        norm_num

/-- C2: for every accepted input and commission rate, the dropna'd strategy
return at offset `k` (time `t = k + 1`) is the position held at `k` times
the percentage price change from `k` to `k + 1`, minus the absolute position
change times the commission; and all-NEUTRAL signals give all-flat positions
and all-zero strategy returns. -/
theorem c2_return_computation (c : ℚ) (inp : BTInput)
    (h : validateInputs inp = Except.ok ()) :
    (∀ (k : ℕ) (pPrev pCur : ℚ) (posPrev posCur : Int),
        k + 1 < inp.prices.length →
        inp.prices.get? k = some pPrev →
        inp.prices.get? (k + 1) = some pCur →
        (generatePositions inp.signals).get? k = some posPrev →
        (generatePositions inp.signals).get? (k + 1) = some posCur →
        (calculateReturns c inp.prices (generatePositions inp.signals)).get?
            k =
          some ((posPrev : ℚ) * (pCur / pPrev - 1) -
            |(posCur : ℚ) - (posPrev : ℚ)| * c))
    ∧ ((∀ s ∈ inp.signals, s = "NEUTRAL") →
        generatePositions inp.signals = List.replicate inp.signals.length 0
        ∧ ∀ r ∈ calculateReturns c inp.prices (generatePositions inp.signals),
            r = 0) := by
  constructor
  · intro k pPrev pCur posPrev posCur hk h1 h2 h3 h4
    have hlen : (generatePositions inp.signals).length = inp.prices.length := by
      rw [generatePositions, genPosAux_length, ← validateInputs_ok_length inp h]
    exact calculateReturns_get c inp.prices (generatePositions inp.signals)
      hlen k hk pPrev pCur posPrev posCur h1 h2 h3 h4
  · intro hneu
    have hpos : generatePositions inp.signals =
        List.replicate inp.signals.length 0 := by
      rw [generatePositions, genPosAux_neutral inp.signals 0 hneu]
    refine ⟨hpos, ?_⟩
    rw [hpos]
    exact calculateReturns_zero c inp.prices inp.signals.length

/-- Witness for C2 at a concrete accepted input. -/
theorem c2_return_computation_witness :
    (calculateReturns (1/1000) [100, 110]
        (generatePositions ["NEUTRAL", "NEUTRAL"])).get? 0 =
      some (((0 : Int) : ℚ) * ((110 : ℚ) / 100 - 1) -
        |((0 : Int) : ℚ) - ((0 : Int) : ℚ)| * (1/1000))
    ∧ generatePositions ["NEUTRAL", "NEUTRAL"] = List.replicate 2 0 := by
  have h := c2_return_computation (1/1000)
    { pricesIndex := [0, 1], pricesIndexIsDatetime := true,
      signalsIndex := [0, 1], prices := [100, 110],
      signals := ["NEUTRAL", "NEUTRAL"] } (by rfl)
  have hneu : ∀ s ∈ ["NEUTRAL", "NEUTRAL"], s = "NEUTRAL" := by
    intro s hs
    simp at hs
    rcases hs with rfl | rfl <;> rfl
  refine ⟨?_, (h.2 hneu).1⟩
  exact h.1 0 100 110 0 0 (by norm_num) rfl rfl (by rfl) (by rfl)

/-! ## C8 — RSI on constant prices -/

/-- Zipping a constant list against its tail applies `f` to equal values. -/
theorem zipWith_cons_replicate {γ : Type} (f : ℚ → ℚ → γ) (c : ℚ) :
    ∀ m : ℕ, List.zipWith f (c :: List.replicate m c) (List.replicate m c) =
      List.replicate m (f c c) := by
  intro m
  induction m with
  | zero => rfl
  | succ k ih =>
    rw [List.replicate_succ, List.zipWith_cons_cons, ih, ← List.replicate_succ]

/-- The clamped-gain series of a constant price series is identically zero. -/
theorem gain_replicate (n : ℕ) (c : ℚ) :
    (diffList (List.replicate n c)).map (fun d =>
        match d with
        | some x => if 0 < x then x else 0
        | none => 0) = List.replicate n (0 : ℚ) := by
  cases n with
  | zero => rfl
  | succ m =>
    rw [List.replicate_succ]
    show (diffList (c :: List.replicate m c)).map _ = _
    rw [show diffList (c :: List.replicate m c) =
        none :: List.zipWith (fun prev cur => some (cur - prev))
          (c :: List.replicate m c) (List.replicate m c) from rfl]
    rw [zipWith_cons_replicate, List.map_cons, List.map_replicate,
      List.replicate_succ]
    simp

/-- The clamped-loss series of a constant price series is identically zero. -/
theorem loss_replicate (n : ℕ) (c : ℚ) :
    (diffList (List.replicate n c)).map (fun d =>
        match d with
        | some x => if x < 0 then -x else 0
        | none => 0) = List.replicate n (0 : ℚ) := by
  cases n with
  | zero => rfl
  | succ m =>
    rw [List.replicate_succ]
    show (diffList (c :: List.replicate m c)).map _ = _
    rw [show diffList (c :: List.replicate m c) =
        none :: List.zipWith (fun prev cur => some (cur - prev))
          (c :: List.replicate m c) (List.replicate m c) from rfl]
    rw [zipWith_cons_replicate, List.map_cons, List.map_replicate,
      List.replicate_succ]
    simp

/-- The rolling mean of an all-zero series is zero wherever defined. -/
theorem rollingMean_replicate_zero (w n : ℕ) :
    rollingMean w (List.replicate n (0 : ℚ)) =
      (List.range n).map fun t => if t + 1 < w then none else some 0 := by
  unfold rollingMean
  rw [List.length_replicate]
  apply List.map_congr_left
  intro t _
  by_cases h : t + 1 < w
  · simp [h]
  · simp only [h, if_false, ite_false]
    rw [List.take_replicate, List.drop_replicate, List.sum_replicate]
    simp

/-- C8: for every valid RSI period and constant close series the RSI column
is total (length-preserving) and every value is NaN or 100 — on constant
input the `0/0` makes each defined entry NaN, and no division raises. -/
theorem c8_rsi_constant (p n : ℕ) (c : ℚ) (hp1 : 10 ≤ p) (hp2 : p ≤ 30) :
    rsiOfClose p (List.replicate n c) = List.replicate n FVal.nan
    ∧ ∀ v ∈ rsiOfClose p (List.replicate n c),
        v = FVal.nan ∨ v = FVal.val 100 := by
  have hmain : rsiOfClose p (List.replicate n c) = List.replicate n FVal.nan := by
    simp only [rsiOfClose]
    rw [gain_replicate, loss_replicate, rollingMean_replicate_zero,
      List.zipWith_same, List.map_map]
    have hnan : ∀ F : ℕ → FVal, (∀ t ∈ List.range n, F t = FVal.nan) →
        (List.range n).map F = List.replicate n FVal.nan := by
      intro F hF
      rw [List.map_congr_left fun a ha => hF a ha, List.map_const']
      simp
    rw [List.map_map]
    apply hnan
    intro t ht
    by_cases h : t + 1 < p
    · simp [Function.comp, h, odivF, FVal.add, FVal.div, FVal.sub, FVal.neg]
    · simp [Function.comp, h, odivF, FVal.add, FVal.div, FVal.sub, FVal.neg]
  refine ⟨hmain, ?_⟩
  intro v hv
  rw [hmain] at hv
  exact Or.inl (List.eq_of_mem_replicate hv)

/-- Witness for C8 at period 14 on a five-element constant series. -/
theorem c8_rsi_constant_witness :
    rsiOfClose 14 (List.replicate 5 (100 : ℚ)) = List.replicate 5 FVal.nan := by
  exact (c8_rsi_constant 14 5 100 (by norm_num) (by norm_num)).1

/-! ## C9 — metrics totality and undefined-ratio policy -/

/-- C9: every metric of `calculate_all` evaluates on every return series
(the embedding is total; the empty and singleton records below exhibit the
degenerate cases), `sortino_ratio` is NaN when there are no negative
returns, `profit_factor` is `+∞` when the sum of negative returns is zero,
and `calmar_ratio` is NaN when the max drawdown is exactly zero. -/
theorem c9_metrics_policies (rf q : ℚ) (rs : List ℚ) :
    ((rs.filter fun r => r < 0) = [] →
        (calculateAll rf rs).sortino_ratio = FVal.nan)
    ∧ ((rs.filter fun r => r < 0).sum = 0 →
        (calculateAll rf rs).profit_factor = FVal.inf)
    ∧ (maxDrawdownF rs = FVal.val 0 →
        (calculateAll rf rs).calmar_ratio = FVal.nan)
    ∧ calculateAll rf [] =
      { total_return := FVal.val 0, annualized_return := FVal.nan,
        annualized_volatility := FVal.nan, sharpe_ratio := FVal.nan,
        sortino_ratio := FVal.nan, max_drawdown := FVal.nan,
        calmar_ratio := FVal.nan, win_rate := FVal.nan,
        profit_factor := FVal.inf, skewness := FVal.nan,
        kurtosis := FVal.nan }
    ∧ ((calculateAll rf [q]).annualized_volatility = FVal.nan
       ∧ (calculateAll rf [q]).sharpe_ratio = FVal.nan
       ∧ (calculateAll rf [q]).skewness = FVal.nan
       ∧ (calculateAll rf [q]).kurtosis = FVal.nan) := by
  refine ⟨?_, ?_, ?_, ?_, ?_, ?_, ?_, ?_⟩
  · intro h
    simp [calculateAll, sortinoF, h]
  · intro h
    simp [calculateAll, profitFactorF, h]
  · intro h
    simp [calculateAll, calmarF, h, FVal.fabs]
  · norm_num [calculateAll, totalReturnF, annualizedReturnF, meanF,
      annualizedVolF, stdF, sharpeF, sortinoF, maxDrawdownF, calmarF,
      winRateF, profitFactorF, skewF, kurtF, FVal.mul, FVal.div, FVal.fabs,
      sqrtPeriods]
  · simp [calculateAll, annualizedVolF, stdF, FVal.mul, sqrtPeriods]
  · simp [calculateAll, sharpeF, stdF, meanF, FVal.div, FVal.mul, sqrtPeriods]
  · simp [calculateAll, skewF]
  · simp [calculateAll, kurtF]

/-- Witness for C9: on the singleton positive return series all three
hypotheses hold simultaneously. -/
theorem c9_metrics_policies_witness :
    (calculateAll (1/50) [1/10]).sortino_ratio = FVal.nan
    ∧ (calculateAll (1/50) [1/10]).profit_factor = FVal.inf
    ∧ (calculateAll (1/50) [1/10]).calmar_ratio = FVal.nan := by
  have h := c9_metrics_policies (1/50) (1/7) [1/10]
  refine ⟨h.1 ?_, h.2.1 ?_, h.2.2.1 ?_⟩
  · norm_num [List.filter]
  · norm_num [List.filter]
  · norm_num [maxDrawdownF, cumprodAux, runningMaxAux, minF]

/-! ## C3 — signal combination rule -/

/-- A series value cannot be both strictly above and strictly below another
at the same timestamp. -/
theorem oGT_oLT_false (a b : Option ℚ) : (oGT a b && oLT a b) = false := by
  cases a with
  | none => rfl
  | some x =>
    cases b with
    | none => rfl
    | some y =>
      by_cases h : y < x
      · have h2 : ¬x < y := lt_asymm h
        simp [oGT, oLT, h, h2]
      · simp [oGT, oLT, h]

/-- An enabled cross-up and cross-down pair with contradictory first legs
cannot fire together. -/
theorem and_cross_false (e x1 x2 y1 y2 : Bool) (h : (x1 && y1) = false) :
    ((e && (x1 && x2)) && (e && (y1 && y2))) = false := by
  cases e <;> cases x1 <;> cases y1 <;> simp_all

/-- The MA cross-up and cross-down conditions are mutually exclusive. -/
theorem condsAt_ma_excl (cfg : SignalConfig) (close : List ℚ) (t : ℕ) :
    ((condsAt cfg close t).maUp && (condsAt cfg close t).maDn) = false := by
  simp only [condsAt]
  rw [show ∀ a b : List (Option ℚ), crossUpO a b t =
      (oGT (oget a t) (oget b t) && oLE (ogetPrev a t) (ogetPrev b t))
    from fun a b => rfl]
  rw [show ∀ a b : List (Option ℚ), crossDownO a b t =
      (oLT (oget a t) (oget b t) && oGE (ogetPrev a t) (ogetPrev b t))
    from fun a b => rfl]
  exact and_cross_false _ _ _ _ _ (oGT_oLT_false _ _)

/-- The MACD cross-up and cross-down conditions are mutually exclusive. -/
theorem condsAt_mc_excl (cfg : SignalConfig) (close : List ℚ) (t : ℕ) :
    ((condsAt cfg close t).mcUp && (condsAt cfg close t).mcDn) = false := by
  simp only [condsAt]
  rw [show ∀ a b : List ℚ, crossUpQ a b t =
      (oGT (a.get? t) (b.get? t) && oLE (qgetPrev a t) (qgetPrev b t))
    from fun a b => rfl]
  rw [show ∀ a b : List ℚ, crossDownQ a b t =
      (oLT (a.get? t) (b.get? t) && oGE (qgetPrev a t) (qgetPrev b t))
    from fun a b => rfl]
  exact and_cross_false _ _ _ _ _ (oGT_oLT_false _ _)

/-- On condition vectors whose MA and MACD cross pairs are exclusive, the
source's sequential assignments realise the amended precedence. -/
theorem combine_eq_of_excl : ∀ (mu md rob ros bl bh cu cd : Bool),
    (mu && md) = false → (cu && cd) = false →
    codeCombine ⟨mu, md, rob, ros, bl, bh, cu, cd⟩ =
      amendCombine ⟨mu, md, rob, ros, bl, bh, cu, cd⟩ := by
  decide

/-- C3 (amended): for every valid configuration and close series, the
emitted signal at each timestamp follows the precedence STRONG_BUY,
STRONG_SELL, then SELL, then BUY (the source's last assignment wins, so a
timestamp where both simple conditions fire yields SELL rather than the
spec's BUY), with each condition false when its indicator is disabled or
its window undefined. -/
theorem c3_signal_combination (cfg : SignalConfig) (close : List ℚ)
    (h : cfg.validate = Except.ok ()) :
    generateSignals cfg close =
      (List.range close.length).map fun t => amendCombine (condsAt cfg close t) := by
  unfold generateSignals
  apply List.map_congr_left
  intro t _
  have hma := condsAt_ma_excl cfg close t
  have hmc := condsAt_mc_excl cfg close t
  exact combine_eq_of_excl (condsAt cfg close t).maUp (condsAt cfg close t).maDn
    (condsAt cfg close t).rsiOb (condsAt cfg close t).rsiOs
    (condsAt cfg close t).bbLo (condsAt cfg close t).bbHi
    (condsAt cfg close t).mcUp (condsAt cfg close t).mcDn hma hmc

/-- The close series of the C3 counterexample. -/
def closeC : List ℚ :=
  [100, 102, 104, 106, 106, 103, 102, 99, 96, 97, 94, 93,
   96, 98, 100, 99, 101, 99, 97, 100, 101, 100, 98, 95]

/-- The configuration of the C3 counterexample: moving-average and MACD
enabled with in-range parameters; RSI and Bollinger disabled. -/
def cfgC : SignalConfig :=
  { enabled := [("moving_average", true), ("macd", true)]
    parameters :=
      [("moving_average", [("short_window", 5), ("long_window", 20)]),
       ("macd", [("fast_period", 8), ("slow_period", 12), ("signal_period", 5)])] }

/-- Element of a range-mapped column. -/
theorem oget_range_map (n t : ℕ) (f : ℕ → Option ℚ) (h : t < n) :
    oget ((List.range n).map f) t = f t := by
  unfold oget
  rw [List.get?_map, List.get?_range h]
  rfl

/-- The counterexample configuration passes `SignalConfig.validate`. -/
theorem cfgC_validate_ok : SignalConfig.validate cfgC = Except.ok () := by
  apply (validateParams_ok_iff cfgC.parameters).mpr
  rw [show cfgC.parameters =
      [("moving_average", [("short_window", (5 : ℚ)), ("long_window", 20)]),
       ("macd", [("fast_period", (8 : ℚ)), ("slow_period", 12),
         ("signal_period", 5)])] from rfl]
  intro g hg
  rcases List.mem_cons.mp hg with rfl | hg'
  · show groupInRange "moving_average"
      [("short_window", (5 : ℚ)), ("long_window", 20)]
    unfold groupInRange
    rw [if_neg (by decide), if_neg (by decide), if_pos (by decide)]
    rw [show pget [("short_window", (5 : ℚ)), ("long_window", 20)]
        "short_window" 20 = 5 from rfl,
      show pget [("short_window", (5 : ℚ)), ("long_window", 20)]
        "long_window" 50 = 20 from rfl]
    norm_num
  · rcases List.mem_cons.mp hg' with rfl | hg''
    · show groupInRange "macd"
        [("fast_period", (8 : ℚ)), ("slow_period", 12), ("signal_period", 5)]
      unfold groupInRange
      rw [if_neg (by decide), if_pos (by decide)]
      rw [show pget [("fast_period", (8 : ℚ)), ("slow_period", 12),
          ("signal_period", 5)] "fast_period" 12 = 8 from rfl,
        show pget [("fast_period", (8 : ℚ)), ("slow_period", 12),
          ("signal_period", 5)] "slow_period" 26 = 12 from rfl,
        show pget [("fast_period", (8 : ℚ)), ("slow_period", 12),
          ("signal_period", 5)] "signal_period" 9 = 5 from rfl]
      norm_num
    · simp at hg''

set_option maxRecDepth 8000 in
set_option maxHeartbeats 4000000 in
/-- At timestamp 23 of the counterexample series the short MA crosses above
the long MA while the MACD crosses below its signal line. -/
theorem condsAt_cfgC_23 :
    condsAt cfgC closeC 23 =
      { maUp := true, maDn := false, rsiOb := false, rsiOs := false,
        bbLo := false, bbHi := false, mcUp := false, mcDn := true } := by
  norm_num [condsAt, closeC,
    show cfgEnabled cfgC "moving_average" = true from rfl,
    show cfgEnabled cfgC "rsi" = false from rfl,
    show cfgEnabled cfgC "bollinger" = false from rfl,
    show cfgEnabled cfgC "macd" = true from rfl,
    show cfgParams cfgC "moving_average" =
      [("short_window", (5 : ℚ)), ("long_window", 20)] from rfl,
    show cfgParams cfgC "macd" =
      [("fast_period", (8 : ℚ)), ("slow_period", 12), ("signal_period", 5)]
      from rfl,
    show pnat [("short_window", (5 : ℚ)), ("long_window", 20)]
      "short_window" = 5 from rfl,
    show pnat [("short_window", (5 : ℚ)), ("long_window", 20)]
      "long_window" = 20 from rfl,
    show pnat [("fast_period", (8 : ℚ)), ("slow_period", 12),
      ("signal_period", 5)] "fast_period" = 8 from rfl,
    show pnat [("fast_period", (8 : ℚ)), ("slow_period", 12),
      ("signal_period", 5)] "slow_period" = 12 from rfl,
    show pnat [("fast_period", (8 : ℚ)), ("slow_period", 12),
      ("signal_period", 5)] "signal_period" = 5 from rfl,
    crossUpO, crossDownO, crossUpQ, crossDownQ, oget_range_map, ogetPrev,
    qgetPrev, rollingMean, ewma, ewmaAux, oGT, oGE, oLT, oLE]

set_option maxRecDepth 8000 in
/-- C3 counterexample: the valid configuration `cfgC` on `closeC` emits
SELL at timestamp 23 while the spec's precedence (BUY before SELL) demands
BUY — both simple conditions fire and the source's later SELL assignment
wins. -/
theorem c3_precedence_counterexample :
    SignalConfig.validate cfgC = Except.ok ()
    ∧ specSignalAt cfgC closeC 23 = SignalType.BUY
    ∧ (generateSignals cfgC closeC).get? 23 = some SignalType.SELL := by
  refine ⟨cfgC_validate_ok, ?_, ?_⟩
  · show specCombine (condsAt cfgC closeC 23) = _
    rw [condsAt_cfgC_23]
    rfl
  · have hg : (generateSignals cfgC closeC).get? 23 =
        some (codeCombine (condsAt cfgC closeC 23)) := by
      unfold generateSignals
      rw [List.get?_map, List.get?_range (by norm_num [closeC])]
      rfl
    rw [hg, condsAt_cfgC_23]
    rfl

/-- Witness for the amended C3 at the concrete valid configuration. -/
theorem c3_signal_combination_witness :
    SignalConfig.validate cfgC = Except.ok ()
    ∧ generateSignals cfgC closeC =
      (List.range closeC.length).map fun t => amendCombine (condsAt cfgC closeC t) :=
  ⟨cfgC_validate_ok, c3_signal_combination cfgC closeC cfgC_validate_ok⟩
